import Mathlib

/-!
Shallow embedding of the two core modules of the xshell repository:

* `src/exec.rs` — the process executor (`exec`), the deadline-aware waiter
  (`wait_deadline`) and the bounded per-stream sinks (the trimmed deques
  maintained by the stdout/stderr drain workers);
* `src/gsl.rs`  — the reentrant global shell lock (`read`, `write`, and the
  `Drop` implementation for `Guard`).

Machine integers are modelled as `Nat` (`usize::MAX` appears explicitly as
`2 ^ 64 - 1` where the source uses `unwrap_or(usize::MAX)`).  Fallible
operations return `Except`/`Option`.  The concurrent parts of `exec` are
sequentialised: the bytes delivered by the pipe reads and the results of the
three worker closures are oracle inputs (`ExecEnv`), while the code that
combines them (the trim loop bodies, `wait_deadline`, and the error/status
assembly at the end of `exec`) is translated statement by statement.  Wall
time is an abstract millisecond clock advanced by sleeps; syscalls performed
by the waiter are recorded in an event trace.
-/

namespace Xshell

/-- Kinds of `std::io::Error` relevant to the executor.  `otherKind` stands
for any kind other than the ones the code inspects. -/
inductive ErrKind
  | timedOut
  | brokenPipe
  | notFound
  | otherKind
deriving DecidableEq, Repr

/-- An `std::io::Error` value: its kind plus a tag distinguishing distinct
error values of the same kind. -/
structure IoError where
  kind : ErrKind
  tag : Nat
deriving DecidableEq, Repr

/-- The error built by `io::ErrorKind::TimedOut.into()` in `wait_deadline`. -/
def ioTimedOut : IoError := ⟨ErrKind.timedOut, 0⟩

/-- Oracle description of one child process, as observed through `try_wait`
and `wait`: the (absolute) time at which it exits on its own, if ever, the
exit status of that natural exit, and the status that a blocking `wait`
observes after the child has been killed. -/
structure Proc where
  exitAt : Option Nat
  natStatus : Nat
  killStatus : Nat
deriving DecidableEq, Repr

/-- Syscall events performed by `wait_deadline`, recorded for the proofs:
non-blocking checks, sleeps, the kill request, the reclaiming wait after a
kill (carrying the status it observed, which the source discards), and the
plain blocking wait of the no-deadline path. -/
inductive Ev
  | tryWaitEv (t : Nat)
  | sleepEv (ms : Nat)
  | killEv
  | reapWaitEv (s : Nat)
  | blockWaitEv
deriving DecidableEq, Repr

/-- Model of `child.try_wait()` at time `t`: the child is observed exited
exactly when its natural exit time has passed.  (The `io::Result` layer of
`try_wait` is not modelled; the oracle is infallible.) -/
def tryWait (p : Proc) (t : Nat) : Option Nat :=
  match p.exitAt with
  | some e => if e ≤ t then some p.natStatus else none
  | none => none

/-- The sleepy loop of `wait_deadline` for the case where a deadline is set
(src/exec.rs:50-64).  `t` is the current time, `sleep_ms` the current sleep
interval (initially 1, doubled after every sleep, capped at 64).  Each
iteration: `try_wait`, then the `Instant::now() > deadline` check (which
kills, reclaims and reports `TimedOut`, discarding the reclaimed status),
then a sleep that advances the clock.  The positivity argument `h` records
that the source only ever runs the loop with a positive interval, which is
what makes it terminate. -/
def waitLoop (p : Proc) (d : Nat) (t : Nat) (s : Nat) (h : 0 < s) :
    Except IoError Nat × List Ev :=
  match tryWait p t with
  | some status => (Except.ok status, [Ev.tryWaitEv t])
  | none =>
    if hd : d < t then
      (Except.error ioTimedOut, [Ev.tryWaitEv t, Ev.killEv, Ev.reapWaitEv p.killStatus])
    else
      let rest := waitLoop p d (t + s) (min (s * 2) 64) (by omega)
      (rest.1, Ev.tryWaitEv t :: Ev.sleepEv s :: rest.2)
termination_by d + 1 - t
decreasing_by simp_wf; omega

/-- Model of `wait_deadline` (src/exec.rs:42-65): with no deadline it is a
single plain blocking wait returning the child's status; with a deadline it
runs the sleepy loop starting from interval 1 ms at the current time `t`. -/
def wait_deadline (p : Proc) (deadline : Option Nat) (t : Nat) :
    Except IoError Nat × List Ev :=
  match deadline with
  | none => (Except.ok p.natStatus, [Ev.blockWaitEv])
  | some d => waitLoop p d t 1 (by omega)

/-- The sleep durations occurring in an event trace, in order. -/
def sleepsOf (evs : List Ev) : List Nat :=
  evs.filterMap fun e =>
    match e with
    | Ev.sleepEv ms => some ms
    | _ => none

/-- The `ExecResult` struct of src/exec.rs:34-40, with bytes as `Nat` and
`ExitStatus` as `Nat`. -/
structure ExecResult where
  stdout : List Nat
  stderr : List Nat
  status : Option Nat
  error : Option IoError
deriving DecidableEq, Repr

/-- The value of `usize::MAX` used by `stdout_limit.unwrap_or(usize::MAX)`. -/
def USIZE_MAX : Nat := 2 ^ 64 - 1

/-- One iteration of the body of a drain worker's read loop after a
successful read of `chunk` (src/exec.rs:109-113): extend the deque with the
chunk, compute the saturating excess over the limit (`usize::MAX` when no
limit is set), and drain that many bytes from the front when positive. -/
def appendChunk (limit : Option Nat) (deque chunk : List Nat) : List Nat :=
  let d := deque ++ chunk
  let excess := d.length - limit.getD USIZE_MAX
  if 0 < excess then d.drop excess else d

/-- The whole read loop of one drain worker over the sequence of chunks the
pipe delivers: fold the trim-append body over an initially empty deque. -/
def drainStream (limit : Option Nat) (chunks : List (List Nat)) : List Nat :=
  chunks.foldl (appendChunk limit) []

/-- The last `n` elements of a list (used to characterise the retained tail
of a bounded sink). -/
def lastN (n : Nat) (l : List Nat) : List Nat := l.drop (l.length - n)

/-- The result-assembly tail of `exec` (src/exec.rs:137-159): starting from
the default result, overwrite `error` with the stderr worker's error, then
the stdout worker's, then the stdin worker's (unless its kind is
`BrokenPipe`), then fill `status` from a successful wait or overwrite
`error` with the wait error. -/
def assembleResult (in_error out_error err_error : Option IoError)
    (status : Except IoError Nat) (out_deque err_deque : List Nat) : ExecResult :=
  let error0 : Option IoError := none
  let error1 :=
    match err_error with
    | some err => some err
    | none => error0
  let error2 :=
    match out_error with
    | some err => some err
    | none => error1
  let error3 :=
    match in_error with
    | some err => if err.kind ≠ ErrKind.brokenPipe then some err else error2
    | none => error2
  match status with
  | Except.ok st =>
    { stdout := out_deque, stderr := err_deque, status := some st, error := error3 }
  | Except.error err =>
    { stdout := out_deque, stderr := err_deque, status := none, error := some err }

/-- Oracle inputs for one `exec` invocation: the outcome of `command.spawn()`,
the child as seen by the waiter, the result of the stdin writer's
`write_all` (`none` = `Ok`), and for each output stream the chunks its pipe
delivers before end-of-stream together with the read error, if any, that
ends its loop instead of end-of-stream. -/
structure ExecEnv where
  spawn : Except IoError Unit
  proc : Proc
  inErr : Option IoError
  outChunks : List (List Nat)
  outErr : Option IoError
  errChunks : List (List Nat)
  errErr : Option IoError
deriving Repr

/-- Observable steps of one `exec` invocation: the successful spawn, the
start of each worker inside the thread scope, and the waiter's syscalls. -/
inductive XEv
  | spawnedEv
  | stdinWorkerEv
  | stdoutWorkerEv
  | stderrWorkerEv
  | waitE (e : Ev)
deriving DecidableEq, Repr

/-- Model of `exec` (src/exec.rs:67-160).  A spawn failure returns the
default result with only `error` set, starting no workers.  Otherwise the
stdin worker runs exactly when `stdin_contents` is supplied, each drain
worker folds its trim-append loop over its chunks, the calling thread runs
`wait_deadline`, and the pieces are combined by the assembly tail.  `t` is
the wall-clock time at which the waiter starts. -/
def exec (env : ExecEnv) (stdin_contents : Option (List Nat))
    (stdout_limit stderr_limit : Option Nat) (deadline : Option Nat) (t : Nat) :
    ExecResult × List XEv :=
  match env.spawn with
  | Except.error err =>
    ({ stdout := [], stderr := [], status := none, error := some err }, [])
  | Except.ok _ =>
    let in_error := if stdin_contents.isSome then env.inErr else none
    let out_deque := drainStream stdout_limit env.outChunks
    let err_deque := drainStream stderr_limit env.errChunks
    let ws := wait_deadline env.proc deadline t
    (assembleResult in_error env.outErr env.errErr ws.1 out_deque err_deque,
      XEv.spawnedEv ::
        ((if stdin_contents.isSome then [XEv.stdinWorkerEv] else []) ++
          [XEv.stdoutWorkerEv, XEv.stderrWorkerEv] ++ ws.2.map XEv.waitE))

/-- The thread-local `Cache` of src/gsl.rs:36-40: `Read 0` is "no interest",
`Read (n+1)` records `n+1` nested read acquisitions, `Write` records the
write acquisition. -/
inductive Cache
  | Read (readers : Nat)
  | Write
deriving DecidableEq, Repr

/-- The `Repr` enum of src/gsl.rs:26-30 held inside a `Guard`: a read guard
that may or may not hold the OS-level `RwLockReadGuard`, or the write guard
holding the OS-level `RwLockWriteGuard`.  A `Guard` is an `Option GRepr`. -/
inductive GRepr
  | Read (holdsOsGuard : Bool)
  | Write
deriving DecidableEq, Repr

/-- Operations on the shared OS-level `RwLock` (the `rw_lock` module):
acquisitions performed by `read`/`write`, releases performed when a held
OS guard is dropped. -/
inductive OsOp
  | acqRead
  | acqWrite
  | relRead
  | relWrite
deriving DecidableEq, Repr

namespace Gsl

/-- Model of `gsl::write` (src/gsl.rs:67-85) acting on the calling thread's
cache: returns the new cache, the guard, and the OS-lock operations
performed; a failed `assert_eq!` is an `Except.error` carrying the
assertion's message. -/
def write (c : Cache) : Except String (Cache × Option GRepr × List OsOp) :=
  match c with
  | Cache.Write => Except.ok (Cache.Write, none, [])
  | Cache.Read readers =>
    if readers = 0 then
      Except.ok (Cache.Write, some GRepr.Write, [OsOp.acqWrite])
    else
      Except.error "calling write() with an active read guard on the same thread might deadlock"

/-- Model of `gsl::read` (src/gsl.rs:88-113) acting on the calling thread's
cache; no assertion can fire here. -/
def read (c : Cache) : Cache × Option GRepr × List OsOp :=
  match c with
  | Cache.Write => (Cache.Write, none, [])
  | Cache.Read readers =>
    if readers = 0 then (Cache.Read 1, some (GRepr.Read true), [OsOp.acqRead])
    else (Cache.Read (readers + 1), some (GRepr.Read false), [])

/-- Model of `Drop for Guard` (src/gsl.rs:115-137): dropping a guard updates
the cache, releases the OS guard the `Repr` held, and a failed
`assert_eq!`/`unreachable!` is an `Except.error` with its message. -/
def dropGuard (g : Option GRepr) (c : Cache) : Except String (Cache × List OsOp) :=
  match g with
  | none => Except.ok (c, [])
  | some (GRepr.Read holdsOsGuard) =>
    match c with
    | Cache.Write => Except.error "had both a reader and a writer"
    | Cache.Read readers =>
      if holdsOsGuard = decide (readers = 1) then
        Except.ok (Cache.Read (readers - 1), if holdsOsGuard then [OsOp.relRead] else [])
      else
        Except.error "read guards dropped in the wrong order"
  | some GRepr.Write =>
    match c with
    | Cache.Write => Except.ok (Cache.Read 0, [OsOp.relWrite])
    | Cache.Read _ => Except.error "write guard dropped without a writer recorded"

end Gsl

/-! ### Helper lemmas about the deadline-aware waiter -/

theorem tryWait_some (p : Proc) (t st : Nat) (hw : tryWait p t = some st) :
    st = p.natStatus := by
  unfold tryWait at hw
  split at hw
  · split at hw
    · exact (Option.some_inj.mp hw).symm
    · exact absurd hw (by simp)
  · exact absurd hw (by simp)

theorem waitLoop_exit (p : Proc) (d t s : Nat) (h : 0 < s) (st : Nat)
    (hw : tryWait p t = some st) :
    waitLoop p d t s h = (Except.ok st, [Ev.tryWaitEv t]) := by
  unfold waitLoop
  simp [hw]

theorem waitLoop_timeout (p : Proc) (d t s : Nat) (h : 0 < s)
    (hw : tryWait p t = none) (hd : d < t) :
    waitLoop p d t s h =
      (Except.error ioTimedOut,
        [Ev.tryWaitEv t, Ev.killEv, Ev.reapWaitEv p.killStatus]) := by
  unfold waitLoop
  simp [hw, hd]

theorem waitLoop_sleep (p : Proc) (d t s : Nat) (h : 0 < s)
    (h2 : 0 < min (s * 2) 64) (hw : tryWait p t = none) (hd : ¬ d < t) :
    waitLoop p d t s h =
      ((waitLoop p d (t + s) (min (s * 2) 64) h2).1,
        Ev.tryWaitEv t :: Ev.sleepEv s :: (waitLoop p d (t + s) (min (s * 2) 64) h2).2) := by
  conv_lhs => unfold waitLoop
  simp [hw, hd]

theorem wait_deadline_past (p : Proc) (d t : Nat)
    (hw : tryWait p t = none) (hd : d < t) :
    wait_deadline p (some d) t =
      (Except.error ioTimedOut,
        [Ev.tryWaitEv t, Ev.killEv, Ev.reapWaitEv p.killStatus]) := by
  unfold wait_deadline
  exact waitLoop_timeout p d t 1 (by omega) hw hd

theorem waitLoop_err_shape :
    ∀ (n : Nat) (p : Proc) (d t s : Nat) (h : 0 < s) (e : IoError) (evs : List Ev),
      d + 1 - t ≤ n → waitLoop p d t s h = (Except.error e, evs) →
      e = ioTimedOut ∧ ∃ pre tf, t ≤ tf ∧ d < tf ∧ tryWait p tf = none ∧
        evs = pre ++ [Ev.tryWaitEv tf, Ev.killEv, Ev.reapWaitEv p.killStatus] := by
  intro n
  induction n with
  | zero =>
    intro p d t s h e evs hn heq
    rcases hw : tryWait p t with _ | st
    · rw [waitLoop_timeout p d t s h hw (by omega)] at heq
      simp only [Prod.mk.injEq] at heq
      obtain ⟨he, hevs⟩ := heq
      refine ⟨by simpa using he.symm, [], t, le_refl t, by omega, hw, by simp [hevs.symm]⟩
    · rw [waitLoop_exit p d t s h st hw] at heq
      simp at heq
  | succ m ih =>
    intro p d t s h e evs hn heq
    rcases hw : tryWait p t with _ | st
    · by_cases hd : d < t
      · rw [waitLoop_timeout p d t s h hw hd] at heq
        simp only [Prod.mk.injEq] at heq
        obtain ⟨he, hevs⟩ := heq
        refine ⟨by simpa using he.symm, [], t, le_refl t, hd, hw, by simp [hevs.symm]⟩
      · have h2 : 0 < min (s * 2) 64 := by omega
        rw [waitLoop_sleep p d t s h h2 hw hd] at heq
        simp only [Prod.mk.injEq] at heq
        obtain ⟨he, hevs⟩ := heq
        have hrec : waitLoop p d (t + s) (min (s * 2) 64) h2 =
            (Except.error e, (waitLoop p d (t + s) (min (s * 2) 64) h2).2) := by
          rw [← he]
        obtain ⟨he', pre, tf, htf, hdtf, hwf, hevs'⟩ :=
          ih p d (t + s) (min (s * 2) 64) h2 e _ (by omega) hrec
        exact ⟨he', Ev.tryWaitEv t :: Ev.sleepEv s :: pre, tf, by omega, hdtf, hwf,
          by simp [hevs.symm, hevs']⟩
    · rw [waitLoop_exit p d t s h st hw] at heq
      simp at heq

theorem min_pow_double (j : Nat) : min (min (2 ^ j) 64 * 2) 64 = min (2 ^ (j + 1)) 64 := by
  have h2 : 2 ^ (j + 1) = 2 ^ j * 2 := pow_succ 2 j
  omega

theorem waitLoop_sleeps_shape :
    ∀ (n : Nat) (p : Proc) (d t s : Nat) (h : 0 < s) (j : Nat), s = min (2 ^ j) 64 →
      d + 1 - t ≤ n →
      ∀ (k x : Nat), (sleepsOf (waitLoop p d t s h).2).get? k = some x →
        x = min (2 ^ (j + k)) 64 := by
  intro n
  induction n with
  | zero =>
    intro p d t s h j hs hn k x hk
    rcases hw : tryWait p t with _ | st
    · rw [waitLoop_timeout p d t s h hw (by omega)] at hk
      simp [sleepsOf] at hk
    · rw [waitLoop_exit p d t s h st hw] at hk
      simp [sleepsOf] at hk
  | succ m ih =>
    intro p d t s h j hs hn k x hk
    rcases hw : tryWait p t with _ | st
    · by_cases hd : d < t
      · rw [waitLoop_timeout p d t s h hw hd] at hk
        simp [sleepsOf] at hk
      · have h2 : 0 < min (s * 2) 64 := by omega
        rw [waitLoop_sleep p d t s h h2 hw hd] at hk
        simp only [sleepsOf, List.filterMap_cons] at hk
        rcases k with _ | k
        · simp only [List.get?_cons_zero] at hk
          rw [← Option.some_inj.mp hk, hs]
          simp
        · simp only [List.get?_cons_succ] at hk
          have hs' : min (s * 2) 64 = min (2 ^ (j + 1)) 64 := by
            rw [hs]
            exact min_pow_double j
          have := ih p d (t + s) (min (s * 2) 64) h2 (j + 1) hs' (by omega) k x
            (by simpa [sleepsOf] using hk)
          have harith : j + 1 + k = j + (k + 1) := by omega
          rw [this, harith]
    · rw [waitLoop_exit p d t s h st hw] at hk
      simp [sleepsOf] at hk

/-! ### Helper lemmas about the bounded stream sinks -/

theorem appendChunk_eq_drop (limit : Option Nat) (dq c : List Nat) :
    appendChunk limit dq c =
      (dq ++ c).drop ((dq ++ c).length - limit.getD USIZE_MAX) := by
  simp only [appendChunk]
  by_cases h : 0 < (dq ++ c).length - limit.getD USIZE_MAX
  · rw [if_pos h]
  · rw [if_neg h]
    have h0 : (dq ++ c).length - limit.getD USIZE_MAX = 0 := by omega
    rw [h0, List.drop_zero]

theorem lastN_append (M : Nat) (L c : List Nat) :
    lastN M (lastN M L ++ c) = lastN M (L ++ c) := by
  simp only [lastN, List.length_append, List.length_drop,
    List.drop_append_eq_append_drop, List.drop_drop]
  congr 1
  · congr 1
    omega
  · congr 1
    omega

theorem drainStream_lastN (limit : Option Nat) (chunks : List (List Nat)) :
    drainStream limit chunks = lastN (limit.getD USIZE_MAX) chunks.flatten := by
  suffices h : ∀ L, List.foldl (appendChunk limit) (lastN (limit.getD USIZE_MAX) L) chunks
      = lastN (limit.getD USIZE_MAX) (L ++ chunks.flatten) by
    have h0 := h []
    simpa [drainStream, lastN] using h0
  induction chunks with
  | nil => intro L; simp
  | cons c cs ih =>
    intro L
    simp only [List.foldl_cons, List.flatten_cons]
    rw [appendChunk_eq_drop]
    have hstep : (lastN (limit.getD USIZE_MAX) L ++ c).drop
        ((lastN (limit.getD USIZE_MAX) L ++ c).length - limit.getD USIZE_MAX)
        = lastN (limit.getD USIZE_MAX) (L ++ c) := by
      have := lastN_append (limit.getD USIZE_MAX) L c
      simpa [lastN] using this
    rw [hstep, ih (L ++ c)]
    simp

theorem drainStream_length (C : Nat) (chunks : List (List Nat)) :
    (drainStream (some C) chunks).length ≤ C := by
  rw [drainStream_lastN]
  simp [lastN]
  omega

/-! ### Claim theorems -/

/-- C1, counterexample: with a non-benign stdin-write error (tag 1) and a
stdout read error (tag 2) both present and the wait succeeding, the
assembled outcome carries the stdin-write error, not the read error — the
claimed priority, in which a generic I/O read/write error supersedes a
non-benign stdin-write error, is the reverse of what the code does. -/
theorem C1_counterexample :
    (assembleResult (some ⟨ErrKind.otherKind, 1⟩) (some ⟨ErrKind.otherKind, 2⟩) none
        (Except.ok 0) [] []).error = some ⟨ErrKind.otherKind, 1⟩
    ∧ ¬ (assembleResult (some ⟨ErrKind.otherKind, 1⟩) (some ⟨ErrKind.otherKind, 2⟩) none
        (Except.ok 0) [] []).error = some ⟨ErrKind.otherKind, 2⟩ := by
  decide

/-- C1, amended: the outcome carries at most one terminal error, selected by
the fixed priority wait error (e.g. timeout) over non-benign stdin-write
error over stdout read error over stderr read error; a broken-pipe
stdin-write error is swallowed (the outcome is as if the stdin worker had
succeeded) and so is never selected. -/
theorem C1_error_priority :
    (∀ (iE oE eE : Option IoError) (e : IoError) (d1 d2 : List Nat),
        (assembleResult iE oE eE (Except.error e) d1 d2).error = some e)
  ∧ (∀ (oE eE : Option IoError) (st : Nat) (ein : IoError) (d1 d2 : List Nat),
        ein.kind ≠ ErrKind.brokenPipe →
        (assembleResult (some ein) oE eE (Except.ok st) d1 d2).error = some ein)
  ∧ (∀ (oE eE : Option IoError) (st : Except IoError Nat) (ein : IoError) (d1 d2 : List Nat),
        ein.kind = ErrKind.brokenPipe →
        assembleResult (some ein) oE eE st d1 d2 = assembleResult none oE eE st d1 d2)
  ∧ (∀ (eE : Option IoError) (st : Nat) (eo : IoError) (d1 d2 : List Nat),
        (assembleResult none (some eo) eE (Except.ok st) d1 d2).error = some eo)
  ∧ (∀ (st : Nat) (ee : IoError) (d1 d2 : List Nat),
        (assembleResult none none (some ee) (Except.ok st) d1 d2).error = some ee)
  ∧ (∀ (st : Nat) (d1 d2 : List Nat),
        (assembleResult none none none (Except.ok st) d1 d2).error = none) := by
  refine ⟨?_, ?_, ?_, ?_, ?_, ?_⟩
  · intro iE oE eE e d1 d2
    simp [assembleResult]
  · intro oE eE st ein d1 d2 hbp
    simp [assembleResult, hbp]
  · intro oE eE st ein d1 d2 hbp
    cases st <;> simp [assembleResult, hbp]
  · intro eE st eo d1 d2
    simp [assembleResult]
  · intro st ee d1 d2
    simp [assembleResult]
  · intro st d1 d2
    simp [assembleResult]

/-- Witness for `C1_error_priority` at concrete errors: a non-benign stdin
error is selected when the wait succeeds, and a broken-pipe stdin error is
swallowed. -/
theorem C1_error_priority_witness :
    ((⟨ErrKind.otherKind, 3⟩ : IoError).kind ≠ ErrKind.brokenPipe
      ∧ (assembleResult (some ⟨ErrKind.otherKind, 3⟩) none none (Except.ok 0) [] []).error
          = some ⟨ErrKind.otherKind, 3⟩)
    ∧ ((⟨ErrKind.brokenPipe, 4⟩ : IoError).kind = ErrKind.brokenPipe
      ∧ assembleResult (some ⟨ErrKind.brokenPipe, 4⟩) none none (Except.ok 0) [] []
          = assembleResult none none none (Except.ok 0) [] []) :=
  ⟨⟨by decide, C1_error_priority.2.1 none none 0 ⟨ErrKind.otherKind, 3⟩ [] [] (by decide)⟩,
    ⟨by decide,
      C1_error_priority.2.2.1 none none (Except.ok 0) ⟨ErrKind.brokenPipe, 4⟩ [] [] (by decide)⟩⟩

/-- C4: for every ceiling `C` and every chunk sequence, after every append
the retained length never exceeds `C`; once the total appended exceeds `C`
the retained content is exactly the last `C` bytes appended, in order; and
with no ceiling no trimming occurs (for totals within the `usize` range,
the only ones a real deque can reach) and everything is retained. -/
theorem C4_bounded_sink :
    (∀ (C : Nat) (chunks : List (List Nat)), (drainStream (some C) chunks).length ≤ C)
  ∧ (∀ (C : Nat) (chunks : List (List Nat)), C < chunks.flatten.length →
      drainStream (some C) chunks = chunks.flatten.drop (chunks.flatten.length - C)
        ∧ (drainStream (some C) chunks).length = C)
  ∧ (∀ (dq c : List Nat), dq.length + c.length ≤ USIZE_MAX →
      appendChunk none dq c = dq ++ c)
  ∧ (∀ (chunks : List (List Nat)), chunks.flatten.length ≤ USIZE_MAX →
      drainStream none chunks = chunks.flatten) := by
  refine ⟨?_, ?_, ?_, ?_⟩
  · intro C chunks
    exact drainStream_length C chunks
  · intro C chunks hlt
    refine ⟨by rw [drainStream_lastN]; rfl, ?_⟩
    rw [drainStream_lastN]
    simp only [lastN, Option.getD_some, List.length_drop]
    omega
  · intro dq c hle
    rw [appendChunk_eq_drop]
    have h0 : (dq ++ c).length - (none : Option Nat).getD USIZE_MAX = 0 := by
      simp only [Option.getD_none, List.length_append]
      omega
    rw [h0, List.drop_zero]
  · intro chunks hle
    rw [drainStream_lastN]
    unfold lastN
    have h0 : chunks.flatten.length - (none : Option Nat).getD USIZE_MAX = 0 := by
      simp only [Option.getD_none]
      omega
    rw [h0, List.drop_zero]

/-- Witness for `C4_bounded_sink` with ceiling 2 and chunks [1,2],[3]: the
sink retains [2,3], the last two bytes. -/
theorem C4_bounded_sink_witness :
    (2 < ([[1, 2], [3]] : List (List Nat)).flatten.length
      ∧ drainStream (some 2) [[1, 2], [3]]
          = ([[1, 2], [3]] : List (List Nat)).flatten.drop
              (([[1, 2], [3]] : List (List Nat)).flatten.length - 2))
    ∧ (([1] : List Nat).length + ([2] : List Nat).length ≤ USIZE_MAX
      ∧ appendChunk none [1] [2] = [1] ++ [2])
    ∧ (([[1, 2], [3]] : List (List Nat)).flatten.length ≤ USIZE_MAX
      ∧ drainStream none [[1, 2], [3]] = ([[1, 2], [3]] : List (List Nat)).flatten) :=
  ⟨⟨by decide, (C4_bounded_sink.2.1 2 [[1, 2], [3]] (by decide)).1⟩,
    ⟨by decide, C4_bounded_sink.2.2.1 [1] [2] (by decide)⟩,
    ⟨by decide, C4_bounded_sink.2.2.2 [[1, 2], [3]] (by decide)⟩⟩

/-- C6: a spawn failure short-circuits `exec`: no workers are started (the
event trace is empty) and the outcome carries exactly the spawn error, no
exit status, and empty captured stdout and stderr. -/
theorem C6_spawn_failure_short_circuits :
    ∀ (e : IoError) (p : Proc) (iE : Option IoError) (oC : List (List Nat))
      (oE : Option IoError) (eC : List (List Nat)) (eE : Option IoError)
      (sc : Option (List Nat)) (sl el dl : Option Nat) (t : Nat),
      exec ⟨Except.error e, p, iE, oC, oE, eC, eE⟩ sc sl el dl t
        = ({ stdout := [], stderr := [], status := none, error := some e }, []) := by
  intro e p iE oC oE eC eE sc sl el dl t
  rfl

/-- C7: the reentrant lock's per-thread discipline: the scenario
read→read→release→release returns the thread to no-interest without
touching the OS lock on the second acquire or the first release; only the
first read acquisition (0→1) and the sole write acquisition touch the OS
lock, every nested acquisition (read under read, read or write under
write) and every nested release is pure thread-local bookkeeping; and the
cache is always one of no-interest (`Read 0`), `Read (n+1)`, or `Write`,
never a read and a write interest at once. -/
theorem C7_lock_reentrancy :
    (Gsl.read (Cache.Read 0) = (Cache.Read 1, some (GRepr.Read true), [OsOp.acqRead]))
  ∧ (Gsl.read (Cache.Read 1) = (Cache.Read 2, some (GRepr.Read false), []))
  ∧ (Gsl.dropGuard (some (GRepr.Read false)) (Cache.Read 2) = Except.ok (Cache.Read 1, []))
  ∧ (Gsl.dropGuard (some (GRepr.Read true)) (Cache.Read 1)
      = Except.ok (Cache.Read 0, [OsOp.relRead]))
  ∧ (∀ n : Nat, Gsl.read (Cache.Read (n + 1))
      = (Cache.Read (n + 2), some (GRepr.Read false), []))
  ∧ (Gsl.read Cache.Write = (Cache.Write, none, []))
  ∧ (Gsl.write Cache.Write = Except.ok (Cache.Write, none, []))
  ∧ (Gsl.write (Cache.Read 0) = Except.ok (Cache.Write, some GRepr.Write, [OsOp.acqWrite]))
  ∧ (∀ n : Nat, Gsl.dropGuard (some (GRepr.Read false)) (Cache.Read (n + 2))
      = Except.ok (Cache.Read (n + 1), []))
  ∧ (∀ c : Cache, (∃ n : Nat, c = Cache.Read n) ∨ c = Cache.Write) := by
  refine ⟨rfl, rfl, rfl, rfl, ?_, rfl, rfl, rfl, ?_, ?_⟩
  · intro n
    simp [Gsl.read]
  · intro n
    have hno : decide (n + 2 = 1) = false := decide_eq_false (by omega)
    simp [Gsl.dropGuard, hno]
  · intro c
    cases c with
    | Read n => exact Or.inl ⟨n, rfl⟩
    | Write => exact Or.inr rfl

/-- C8, counterexample: acquiring two write guards on one thread and
releasing the first-acquired (OS-holding) one first — the misuse warned
about in the source's own doc comment — passes every assertion: the drop
succeeds, releasing the OS write lock and resetting the cache to
no-interest while the second (empty) guard is still live, so this
out-of-order release is not detected. -/
theorem C8_counterexample :
    Gsl.write (Cache.Read 0) = Except.ok (Cache.Write, some GRepr.Write, [OsOp.acqWrite])
    ∧ Gsl.write Cache.Write = Except.ok (Cache.Write, none, [])
    ∧ Gsl.dropGuard (some GRepr.Write) Cache.Write
        = Except.ok (Cache.Read 0, [OsOp.relWrite]) :=
  ⟨rfl, rfl, rfl⟩

/-- C8, amended: calling `write()` while the thread holds a read interest is
detected by a failed assertion, as is releasing the OS-holding read guard
while other read guards remain, releasing a non-OS-holding read guard when
it is the last one recorded, and dropping a read guard while the thread is
recorded as writing; but not every out-of-order release is detected — in
particular dropping an outer write guard before a nested one passes all
assertions silently. -/
theorem C8_misuse_detection :
    (∀ n : Nat, Gsl.write (Cache.Read (n + 1))
        = Except.error
            "calling write() with an active read guard on the same thread might deadlock")
  ∧ (∀ n : Nat, Gsl.dropGuard (some (GRepr.Read true)) (Cache.Read (n + 2))
        = Except.error "read guards dropped in the wrong order")
  ∧ (Gsl.dropGuard (some (GRepr.Read false)) (Cache.Read 1)
        = Except.error "read guards dropped in the wrong order")
  ∧ (∀ b : Bool, Gsl.dropGuard (some (GRepr.Read b)) Cache.Write
        = Except.error "had both a reader and a writer") := by
  refine ⟨?_, ?_, rfl, ?_⟩
  · intro n
    simp [Gsl.write]
  · intro n
    have hno : decide (n + 2 = 1) = false := decide_eq_false (by omega)
    simp [Gsl.dropGuard, hno]
  · intro b
    cases b <;> rfl

theorem exec_ok (p : Proc) (iE : Option IoError) (oC : List (List Nat))
    (oE : Option IoError) (eC : List (List Nat)) (eE : Option IoError)
    (sc : Option (List Nat)) (sl el dl : Option Nat) (t : Nat) :
    exec ⟨Except.ok (), p, iE, oC, oE, eC, eE⟩ sc sl el dl t
      = (assembleResult (if sc.isSome then iE else none) oE eE
            (wait_deadline p dl t).1 (drainStream sl oC) (drainStream el eC),
          XEv.spawnedEv ::
            ((if sc.isSome then [XEv.stdinWorkerEv] else []) ++
              [XEv.stdoutWorkerEv, XEv.stderrWorkerEv]
              ++ (wait_deadline p dl t).2.map XEv.waitE)) := rfl

/-- C2, counterexample: a concrete run in which the wait times out, the
reclaiming wait after the kill observes exit status 9 (recorded in the
trace — the status of the forced termination was obtainable), and yet the
outcome's status field is `none`: a timeout outcome unconditionally leaves
the status field absent, because `wait_deadline` discards the status of its
final reclaiming wait. -/
theorem C2_counterexample :
    (exec ⟨Except.ok (), ⟨none, 0, 9⟩, none, [[1, 2]], none, [], none⟩
        none none none (some 0) 1).1.error = some ioTimedOut
    ∧ (exec ⟨Except.ok (), ⟨none, 0, 9⟩, none, [[1, 2]], none, [], none⟩
        none none none (some 0) 1).2.contains (XEv.waitE (Ev.reapWaitEv 9)) = true
    ∧ (exec ⟨Except.ok (), ⟨none, 0, 9⟩, none, [[1, 2]], none, [], none⟩
        none none none (some 0) 1).1.status = none := by
  have hw : wait_deadline ⟨none, 0, 9⟩ (some 0) 1
      = (Except.error ioTimedOut, [Ev.tryWaitEv 1, Ev.killEv, Ev.reapWaitEv 9]) :=
    wait_deadline_past ⟨none, 0, 9⟩ 0 1 rfl (by omega)
  rw [exec_ok, hw]
  exact ⟨rfl, rfl, rfl⟩

/-- C2, amended: whenever the wait reports an error (in particular the
deadline timeout), the outcome's exit status field is absent — the exit
status obtained by the forced-termination wait is discarded, never placed
in the outcome. -/
theorem C2_timeout_leaves_status_absent :
    ∀ (env : ExecEnv) (sc : Option (List Nat)) (sl el dl : Option Nat) (t : Nat)
      (e : IoError),
      (wait_deadline env.proc dl t).1 = Except.error e →
      (exec env sc sl el dl t).1.status = none := by
  intro env sc sl el dl t e hwd
  obtain ⟨sp, p, iE, oC, oE, eC, eE⟩ := env
  cases sp with
  | error err => rfl
  | ok u =>
    cases u
    rw [exec_ok]
    simp only at hwd
    rw [hwd]
    rfl

/-- Witness for `C2_timeout_leaves_status_absent` on a concrete timed-out
run. -/
theorem C2_timeout_leaves_status_absent_witness :
    (wait_deadline (⟨none, 0, 7⟩ : Proc) (some 0) 1).1 = Except.error ioTimedOut
    ∧ (exec ⟨Except.ok (), ⟨none, 0, 7⟩, none, [], none, [], none⟩
        none none none (some 0) 1).1.status = none := by
  have hw : wait_deadline ⟨none, 0, 7⟩ (some 0) 1
      = (Except.error ioTimedOut, [Ev.tryWaitEv 1, Ev.killEv, Ev.reapWaitEv 7]) :=
    wait_deadline_past ⟨none, 0, 7⟩ 0 1 rfl (by omega)
  have h1 : (wait_deadline (⟨none, 0, 7⟩ : Proc) (some 0) 1).1 = Except.error ioTimedOut := by
    rw [hw]
  exact ⟨h1,
    C2_timeout_leaves_status_absent ⟨Except.ok (), ⟨none, 0, 7⟩, none, [], none, [], none⟩
      none none none (some 0) 1 ioTimedOut h1⟩

/-- C3: the waiter's algorithm: with no deadline it performs exactly one
plain blocking wait and returns its result; with a deadline, the k-th sleep
between non-blocking checks lasts min(2^k, 64) ms — exponentially
increasing from 1 ms, capped at 64 ms; and when it reports an error the
error is the timeout, the child was observed still running strictly after
the deadline, and the trace ends with the kill request followed by the
final reclaiming blocking wait. -/
theorem C3_waiter_algorithm :
    (∀ (p : Proc) (t : Nat),
        wait_deadline p none t = (Except.ok p.natStatus, [Ev.blockWaitEv]))
  ∧ (∀ (p : Proc) (d t k x : Nat),
        (sleepsOf (wait_deadline p (some d) t).2).get? k = some x →
        x = min (2 ^ k) 64)
  ∧ (∀ (p : Proc) (d t : Nat) (e : IoError) (evs : List Ev),
        wait_deadline p (some d) t = (Except.error e, evs) →
        e = ioTimedOut ∧ ∃ pre tf, d < tf ∧ tryWait p tf = none ∧
          evs = pre ++ [Ev.tryWaitEv tf, Ev.killEv, Ev.reapWaitEv p.killStatus]) := by
  refine ⟨fun p t => rfl, ?_, ?_⟩
  · intro p d t k x hk
    have := waitLoop_sleeps_shape (d + 1 - t) p d t 1 (by omega) 0 (by decide)
      (le_refl _) k x hk
    simpa using this
  · intro p d t e evs heq
    obtain ⟨he, pre, tf, _, hd, hw, hevs⟩ :=
      waitLoop_err_shape (d + 1 - t) p d t 1 (by omega) e evs (le_refl _) heq
    exact ⟨he, pre, tf, hd, hw, hevs⟩

/-- Witness for `C3_waiter_algorithm`: a no-deadline wait, and a run with
deadline 1 starting at time 1 whose first sleep is 1 = min(2^0, 64) ms and
which ends in kill, reclaim and timeout. -/
theorem C3_waiter_algorithm_witness :
    wait_deadline (⟨some 2, 7, 9⟩ : Proc) none 5 = (Except.ok 7, [Ev.blockWaitEv])
    ∧ ((sleepsOf (wait_deadline (⟨none, 0, 9⟩ : Proc) (some 1) 1).2).get? 0 = some 1
        ∧ (1 : Nat) = min (2 ^ 0) 64)
    ∧ (wait_deadline (⟨none, 0, 9⟩ : Proc) (some 1) 1
          = (Except.error ioTimedOut,
              [Ev.tryWaitEv 1, Ev.sleepEv 1, Ev.tryWaitEv 2, Ev.killEv, Ev.reapWaitEv 9])
        ∧ (ioTimedOut = ioTimedOut ∧ ∃ pre tf, 1 < tf ∧ tryWait (⟨none, 0, 9⟩ : Proc) tf = none ∧
            ([Ev.tryWaitEv 1, Ev.sleepEv 1, Ev.tryWaitEv 2, Ev.killEv, Ev.reapWaitEv 9] : List Ev)
              = pre ++ [Ev.tryWaitEv tf, Ev.killEv,
                  Ev.reapWaitEv (⟨none, 0, 9⟩ : Proc).killStatus])) := by
  have h1 : (0 : Nat) < 1 := by omega
  have h2 : (0 : Nat) < min (1 * 2) 64 := by omega
  have e2 : waitLoop ⟨none, 0, 9⟩ 1 2 (min (1 * 2) 64) h2
      = (Except.error ioTimedOut, [Ev.tryWaitEv 2, Ev.killEv, Ev.reapWaitEv 9]) :=
    waitLoop_timeout ⟨none, 0, 9⟩ 1 2 (min (1 * 2) 64) h2 rfl (by omega)
  have e1 : waitLoop ⟨none, 0, 9⟩ 1 1 1 h1
      = (Except.error ioTimedOut,
          [Ev.tryWaitEv 1, Ev.sleepEv 1, Ev.tryWaitEv 2, Ev.killEv, Ev.reapWaitEv 9]) := by
    rw [waitLoop_sleep ⟨none, 0, 9⟩ 1 1 1 h1 h2 rfl (by omega), e2]
  have erun : wait_deadline (⟨none, 0, 9⟩ : Proc) (some 1) 1
      = (Except.error ioTimedOut,
          [Ev.tryWaitEv 1, Ev.sleepEv 1, Ev.tryWaitEv 2, Ev.killEv, Ev.reapWaitEv 9]) := by
    show waitLoop ⟨none, 0, 9⟩ 1 1 1 (by omega) = _
    rw [waitLoop_sleep ⟨none, 0, 9⟩ 1 1 1 (by omega) h2 rfl (by omega), e2]
  have hget : (sleepsOf (wait_deadline (⟨none, 0, 9⟩ : Proc) (some 1) 1).2).get? 0 = some 1 := by
    rw [erun]
    rfl
  exact ⟨C3_waiter_algorithm.1 ⟨some 2, 7, 9⟩ 5,
    ⟨hget, C3_waiter_algorithm.2.1 ⟨none, 0, 9⟩ 1 1 0 1 hget⟩,
    ⟨erun, C3_waiter_algorithm.2.2 ⟨none, 0, 9⟩ 1 1 ioTimedOut _ erun⟩⟩

/-- C5: a deadline already past at call time does not prevent the spawn:
with the spawn succeeding and the child still running at the entry check,
`exec` spawns (the trace begins with the spawn), immediately times out (the
wait trace is a single check followed by kill and reclaim, with no sleeps),
reports the timeout, and still exposes the partial output captured by the
drain workers in the outcome. -/
theorem C5_past_deadline_still_spawns :
    ∀ (env : ExecEnv) (sc : Option (List Nat)) (sl el : Option Nat) (d t : Nat),
      env.spawn = Except.ok () → tryWait env.proc t = none → d < t →
      (exec env sc sl el (some d) t).2.head? = some XEv.spawnedEv
      ∧ (exec env sc sl el (some d) t).1.error = some ioTimedOut
      ∧ (exec env sc sl el (some d) t).1.status = none
      ∧ (exec env sc sl el (some d) t).1.stdout = drainStream sl env.outChunks
      ∧ (exec env sc sl el (some d) t).1.stderr = drainStream el env.errChunks
      ∧ (wait_deadline env.proc (some d) t).2
          = [Ev.tryWaitEv t, Ev.killEv, Ev.reapWaitEv env.proc.killStatus] := by
  intro env sc sl el d t hsp hw hd
  obtain ⟨sp, p, iE, oC, oE, eC, eE⟩ := env
  simp only at hsp hw ⊢
  subst hsp
  have hwd := wait_deadline_past p d t hw hd
  rw [exec_ok, hwd]
  exact ⟨rfl, rfl, rfl, rfl, rfl, rfl⟩

/-- Witness for `C5_past_deadline_still_spawns` on a concrete environment
with deadline 0 already past at start time 1. -/
theorem C5_past_deadline_still_spawns_witness :
    ((⟨Except.ok (), ⟨none, 0, 3⟩, none, [[5]], none, [], none⟩ : ExecEnv).spawn = Except.ok ()
      ∧ tryWait (⟨none, 0, 3⟩ : Proc) 1 = none ∧ 0 < 1)
    ∧ (exec ⟨Except.ok (), ⟨none, 0, 3⟩, none, [[5]], none, [], none⟩
        none none none (some 0) 1).1.error = some ioTimedOut
    ∧ (exec ⟨Except.ok (), ⟨none, 0, 3⟩, none, [[5]], none, [], none⟩
        none none none (some 0) 1).1.stdout = drainStream none [[5]] :=
  ⟨⟨rfl, rfl, by omega⟩,
    (C5_past_deadline_still_spawns ⟨Except.ok (), ⟨none, 0, 3⟩, none, [[5]], none, [], none⟩
      none none none 0 1 rfl rfl (by omega)).2.1,
    (C5_past_deadline_still_spawns ⟨Except.ok (), ⟨none, 0, 3⟩, none, [[5]], none, [], none⟩
      none none none 0 1 rfl rfl (by omega)).2.2.2.1⟩

/-- C10: every iteration of the deadline loop checks for exit before
checking the deadline: a child observed exited at the entry check yields
its true exit status for every deadline, even one already passed; and a
timeout is reported only when some check performed strictly after the
deadline (and no earlier than the start) still observed the child
running. -/
theorem C10_exit_check_precedes_deadline_check :
    (∀ (p : Proc) (d t s : Nat) (h : 0 < s) (st : Nat), tryWait p t = some st →
        waitLoop p d t s h = (Except.ok st, [Ev.tryWaitEv t]) ∧ st = p.natStatus)
  ∧ (∀ (p : Proc) (d t : Nat) (e : IoError) (evs : List Ev),
        wait_deadline p (some d) t = (Except.error e, evs) →
        ∃ tf, t ≤ tf ∧ d < tf ∧ tryWait p tf = none) := by
  constructor
  · intro p d t s h st hw
    exact ⟨waitLoop_exit p d t s h st hw, tryWait_some p t st hw⟩
  · intro p d t e evs heq
    obtain ⟨_, pre, tf, h1, h2, h3, _⟩ :=
      waitLoop_err_shape (d + 1 - t) p d t 1 (by omega) e evs (le_refl _) heq
    exact ⟨tf, h1, h2, h3⟩

/-- Witness for `C10_exit_check_precedes_deadline_check`: a child that
exited at time 0 is reported with its true status 5 at a check at time 3
under the long-passed deadline 1; and a concrete timed-out run exhibits the
late check. -/
theorem C10_exit_check_precedes_deadline_check_witness :
    (tryWait (⟨some 0, 5, 9⟩ : Proc) 3 = some 5
      ∧ waitLoop (⟨some 0, 5, 9⟩ : Proc) 1 3 1 (by omega)
          = (Except.ok 5, [Ev.tryWaitEv 3])
      ∧ (5 : Nat) = (⟨some 0, 5, 9⟩ : Proc).natStatus)
    ∧ (wait_deadline (⟨none, 0, 9⟩ : Proc) (some 0) 2
          = (Except.error ioTimedOut, [Ev.tryWaitEv 2, Ev.killEv, Ev.reapWaitEv 9])
        ∧ ∃ tf, 2 ≤ tf ∧ 0 < tf ∧ tryWait (⟨none, 0, 9⟩ : Proc) tf = none) := by
  have hw : wait_deadline ⟨none, 0, 9⟩ (some 0) 2
      = (Except.error ioTimedOut, [Ev.tryWaitEv 2, Ev.killEv, Ev.reapWaitEv 9]) :=
    wait_deadline_past ⟨none, 0, 9⟩ 0 2 rfl (by omega)
  refine ⟨⟨rfl, ?_, ?_⟩, hw, ?_⟩
  · exact (C10_exit_check_precedes_deadline_check.1 ⟨some 0, 5, 9⟩ 1 3 1 (by omega) 5 rfl).1
  · exact (C10_exit_check_precedes_deadline_check.1 ⟨some 0, 5, 9⟩ 1 3 1 (by omega) 5 rfl).2
  · exact C10_exit_check_precedes_deadline_check.2 ⟨none, 0, 9⟩ 0 2 ioTimedOut _ hw

end Xshell
